import Mathlib

/-
Shallow embedding of the luaffi foreign-type and memory-marshalling core
(src/src/ctype.rs, src/src/parser.rs, src/src/cdata.rs, src/src/ffi_ops.rs).

Platform fixed by the embedding: 64-bit little-endian Unix (linux x86_64):
size_of and align_of for bool are 1, usize and isize and raw pointers are
8 bytes, and the libc integer aliases have their linux x86_64 widths.
Machine integers are embedded as Nat or Int with explicit reduction
modulo 2 ^ 64 (or the relevant width) where the Rust code can wrap.
-/

/-- The POSIX platform integer aliases of the CType enum (the cfg(unix)
variants InoT .. TimeT of src/src/ctype.rs). -/
inductive PosixTy where
  | inoT | devT | gidT | modeT | nlinkT | uidT | offT | pidT
  | usecondsT | susecondsT | blksizeT | blkcntT | timeT
  deriving DecidableEq

mutual
/-- The C type representation: enum CType of src/src/ctype.rs (lines 5-73),
one constructor per variant.  The vla constructor is the CType::VLA variant:
it is referenced by src/src/ffi_ops.rs, src/src/cdata.rs and the test suite
(tests/vla_test.rs), but its declaration is absent from the snapshot of
src/src/ctype.rs in src/, so it is included here as the missing variant. -/
inductive CType where
  | bool | char | uchar | short | ushort | int | uint | long | ulong
  | longlong | ulonglong
  | int8 | int16 | int32 | int64 | uint8 | uint16 | uint32 | uint64
  | posix (p : PosixTy)
  | sizeT | ssizeT
  | float | double
  | void
  | ptr (inner : CType)
  | array (inner : CType) (count : Nat)
  | struct (name : String) (fields : List CField)
  | union (name : String) (fields : List CField)
  | function (ret : CType) (params : List CType)
  | typedef (name : String) (inner : CType)
  | vla (inner : CType)

/-- A struct/union field: struct CField of src/src/ctype.rs (name, ctype,
offset). -/
inductive CField where
  | mk (name : String) (ctype : CType) (offset : Nat)
end

/-- Field name projection. -/
def CField.name : CField → String
  | .mk n _ _ => n

/-- Field type projection. -/
def CField.ctype : CField → CType
  | .mk _ t _ => t

/-- Field offset projection. -/
def CField.offset : CField → Nat
  | .mk _ _ o => o

/-- Bitwise NOT of a 64-bit machine word, as used by the expression
!(align - 1) on usize in the Rust source. -/
def wordNot (x : Nat) : Nat := 2 ^ 64 - 1 - x % 2 ^ 64

/-- The rounding expression (cursor + align - 1) & !(align - 1) shared by
calculate_field_offsets (src/src/parser.rs line 80) and CType::size
(src/src/ctype.rs line 140); the addition is a wrapping usize addition. -/
def alignUpBits (cursor align : Nat) : Nat :=
  Nat.land ((cursor + align - 1) % 2 ^ 64) (wordNot (align - 1))

mutual
/-- CType::alignment (src/src/ctype.rs lines 86-106).  The posix arm is the
cfg(unix) catch-all returning 8.  The vla arm is Modelled from the spec: the
VLA variant is absent from the snapshot of src/src/ctype.rs, and the spec
(section 3 invariants) defines VariableLengthArray alignment as the inner
type's alignment, as do the repository tests (tests/vla_test.rs). -/
def CType.alignment : CType → Nat
  | .bool => 1
  | .char | .uchar | .int8 | .uint8 => 1
  | .short | .ushort | .int16 | .uint16 => 2
  | .int | .uint | .int32 | .uint32 | .float => 4
  | .long | .ulong | .longlong | .ulonglong | .int64 | .uint64 | .double => 8
  | .sizeT | .ssizeT => 8
  | .void => 1
  | .ptr _ | .function _ _ => 8
  | .array inner _ | .typedef _ inner => inner.alignment
  | .struct _ fields | .union _ fields => (CType.fieldsMaxAlign fields).getD 1
  | .vla inner => inner.alignment
  | .posix _ => 8

/-- fields.iter().map(|f| f.ctype.alignment()).max() over a field list. -/
def CType.fieldsMaxAlign : List CField → Option Nat
  | [] => none
  | .mk _ t _ :: rest =>
    some (match CType.fieldsMaxAlign rest with
      | none => t.alignment
      | some m => max t.alignment m)
end

mutual
/-- CType::size (src/src/ctype.rs lines 110-145).  Long and ULong are
size_of::<isize>() = 8, SizeT/SSizeT are size_of::<usize>() = 8, pointers
and functions are size_of::<*const ()>() = 8, and the thirteen cfg(unix)
POSIX aliases all take the explicit unix arm returning 8.  The vla arm is
Modelled from the spec: the VLA variant is absent from the snapshot of
src/src/ctype.rs, and the spec defines VariableLengthArray size as 0, as do
the repository tests (tests/vla_test.rs). -/
def CType.size : CType → Nat
  | .bool => 1
  | .char | .uchar | .int8 | .uint8 => 1
  | .short | .ushort | .int16 | .uint16 => 2
  | .int | .uint | .int32 | .uint32 => 4
  | .long | .ulong => 8
  | .longlong | .ulonglong | .int64 | .uint64 => 8
  | .sizeT | .ssizeT => 8
  | .posix _ => 8
  | .float => 4
  | .double => 8
  | .void => 0
  | .ptr _ | .function _ _ => 8
  | .array inner count => inner.size * count
  | .struct n fields =>
    if fields.isEmpty then 0
    else
      alignUpBits ((CType.fieldsMaxEnd fields).getD 0)
        ((CType.struct n fields).alignment)
  | .union _ fields => (CType.fieldsMaxSize fields).getD 0
  | .typedef _ inner => inner.size
  | .vla _ => 0

/-- fields.iter().map(|f| f.offset + f.ctype.size()).max() over a field
list (the maximum field end offset of the struct size computation). -/
def CType.fieldsMaxEnd : List CField → Option Nat
  | [] => none
  | .mk _ t off :: rest =>
    some (match CType.fieldsMaxEnd rest with
      | none => off + t.size
      | some m => max (off + t.size) m)

/-- fields.iter().map(|f| f.ctype.size()).max() over a field list (the
union size computation). -/
def CType.fieldsMaxSize : List CField → Option Nat
  | [] => none
  | .mk _ t _ :: rest =>
    some (match CType.fieldsMaxSize rest with
      | none => t.size
      | some m => max t.size m)
end

/-- Little-endian byte encoding of the low 8*w bits of a machine integer
(the in-memory representation of integer stores on the target). -/
def toLEBytes : Nat → Nat → List Nat
  | 0, _ => []
  | w + 1, x => x % 256 :: toLEBytes w (x / 256)

/-- Little-endian byte decoding (the in-memory representation of integer
loads on the target). -/
def fromLEBytes : List Nat → Nat
  | [] => 0
  | b :: rest => b % 256 + 256 * fromLEBytes rest

/-- Store a byte list into a buffer at an offset: the raw store through
ptr.add(off), with the buffer modelling the pointed-to region. -/
def writeBytes (buf : List Nat) (off : Nat) (bs : List Nat) : List Nat :=
  buf.take off ++ bs ++ buf.drop (off + bs.length)

/-- Load n bytes from a buffer at an offset. -/
def readBytes (buf : List Nat) (off n : Nat) : List Nat :=
  (buf.drop off).take n

/-- Classification of an IEEE 754 binary64 bit pattern: not-a-number, an
infinity, or a finite value given as an exact rational.  Lua numbers are
f64 and are embedded by their 64-bit pattern; this function recovers the
numeric reading the Rust code compares and casts. -/
inductive F64Class where
  | nan
  | posInf
  | negInf
  | finite (q : ℚ)
  deriving DecidableEq

/-- Exact numeric reading of an IEEE 754 binary64 bit pattern. -/
def f64Classify (bits : Nat) : F64Class :=
  let s : ℕ := bits / 2 ^ 63 % 2
  let e : ℕ := bits / 2 ^ 52 % 2 ^ 11
  let m : ℕ := bits % 2 ^ 52
  if e = 2047 then
    if m = 0 then (if s = 1 then .negInf else .posInf) else .nan
  else
    let mag : ℚ :=
      if e = 0 then (m : ℚ) * (2 : ℚ) ^ (-1074 : ℤ)
      else ((2 ^ 52 + m : ℕ) : ℚ) * (2 : ℚ) ^ ((e : ℤ) - 1075)
    .finite (if s = 1 then -mag else mag)

/-- The f64 test n.is_finite(). -/
def f64IsFinite (bits : Nat) : Bool :=
  match f64Classify bits with
  | .finite _ => true
  | _ => false

/-- The f64 comparison n >= 0.0: false on NaN, true on +infinity and on
-0.0 (whose numeric reading is 0). -/
def f64Ge0 (bits : Nat) : Bool :=
  match f64Classify bits with
  | .nan => false
  | .posInf => true
  | .negInf => false
  | .finite q => decide (0 ≤ q)

/-- Truncation toward zero of a rational: the rounding used by Rust
float-to-integer casts. -/
def ratTrunc (q : ℚ) : Int := if q < 0 then -⌊-q⌋ else ⌊q⌋

/-- The Rust cast of an f64 to a w-byte integer type (n as iN / n as uN):
truncate toward zero and saturate to the target range; NaN casts to 0. -/
def f64AsInt (bits : Nat) (w : Nat) (signed : Bool) : Int :=
  let lo : Int := if signed then -(2 ^ (8 * w - 1)) else 0
  let hi : Int := if signed then 2 ^ (8 * w - 1) - 1 else 2 ^ (8 * w) - 1
  match f64Classify bits with
  | .nan => 0
  | .posInf => hi
  | .negInf => lo
  | .finite q => max lo (min hi (ratTrunc q))

/-- The stored pattern of a Rust integer `as` cast to a w-byte integer
type: the low 8*w bits (two's complement wraparound). -/
def intWrapBits (w : Nat) (i : Int) : Nat := (i % ((2 ^ (8 * w) : Nat) : Int)).toNat

/-- Two's complement reading of an 8*w-bit pattern. -/
def decodeSigned (w n : Nat) : Int :=
  if n < 2 ^ (8 * w - 1) then (n : Int) else (n : Int) - 2 ^ (8 * w)

/-- The Rust cast n as f32 on an f64 bit pattern, modelled exactly on the
patterns the conversion preserves: signed zeros, infinities, NaN, and
normal values exactly representable as binary32 (binary32 exponent in
range, low 29 mantissa bits zero).  On all other patterns the hardware
rounds to nearest; that rounding is not modelled (no claim evaluates it)
and the model returns the +0.0 pattern. -/
def f64BitsAsF32 (bits : Nat) : Nat :=
  let s := bits / 2 ^ 63 % 2
  let e := bits / 2 ^ 52 % 2 ^ 11
  let m := bits % 2 ^ 52
  if e = 0 ∧ m = 0 then s * 2 ^ 31
  else if e = 2047 then
    if m = 0 then s * 2 ^ 31 + 255 * 2 ^ 23
    else s * 2 ^ 31 + 255 * 2 ^ 23 + 2 ^ 22
  else if 897 ≤ e ∧ e ≤ 1150 ∧ m % 2 ^ 29 = 0 then
    s * 2 ^ 31 + (e - 896) * 2 ^ 23 + m / 2 ^ 29
  else s * 2 ^ 31

/-- The Rust widening conversion of an f32 bit pattern loaded from memory
to the f64 handed to the host, exact per IEEE 754 (binary32 subnormals
normalize into binary64; NaN payloads shift into the high mantissa). -/
def f32BitsAsF64 (w : Nat) : Nat :=
  let s := w / 2 ^ 31 % 2
  let e := w / 2 ^ 23 % 2 ^ 8
  let m := w % 2 ^ 23
  if e = 255 then s * 2 ^ 63 + 2047 * 2 ^ 52 + m * 2 ^ 29
  else if e = 0 then
    if m = 0 then s * 2 ^ 63
    else s * 2 ^ 63 + (Nat.log2 m + 874) * 2 ^ 52 + (m - 2 ^ Nat.log2 m) * 2 ^ (52 - Nat.log2 m)
  else s * 2 ^ 63 + (e + 896) * 2 ^ 52 + m * 2 ^ 29

/-- The Rust cast i as f32 from i64, modelled exactly on integers binary32
represents exactly; other integers round to nearest, which no claim
evaluates, and map to the +0.0 pattern in the model. -/
def intAsF32Bits (i : Int) : Nat :=
  if i = 0 then 0
  else
    let s := if i < 0 then 1 else 0
    let n := i.natAbs
    let l := Nat.log2 n
    if l ≤ 23 then s * 2 ^ 31 + (l + 127) * 2 ^ 23 + (n - 2 ^ l) * 2 ^ (23 - l)
    else if (n - 2 ^ l) % 2 ^ (l - 23) = 0 ∧ l ≤ 127 then
      s * 2 ^ 31 + (l + 127) * 2 ^ 23 + (n - 2 ^ l) / 2 ^ (l - 23)
    else 0

/-- The Rust cast i as f64 from i64, modelled exactly on integers binary64
represents exactly (in particular every integer of magnitude below 2^53);
others map to the +0.0 pattern in the model. -/
def intAsF64Bits (i : Int) : Nat :=
  if i = 0 then 0
  else
    let s := if i < 0 then 1 else 0
    let n := i.natAbs
    let l := Nat.log2 n
    if l ≤ 52 then s * 2 ^ 63 + (l + 1023) * 2 ^ 52 + (n - 2 ^ l) * 2 ^ (52 - l)
    else if (n - 2 ^ l) % 2 ^ (l - 52) = 0 then
      s * 2 ^ 63 + (l + 1023) * 2 ^ 52 + (n - 2 ^ l) / 2 ^ (l - 52)
    else 0

/-- SMALL_BUFFER_SIZE (src/src/cdata.rs line 88): the small-buffer
optimization threshold. -/
def SMALL_BUFFER_SIZE : Nat := 64

/-- The memory value: struct CData of src/src/cdata.rs (lines 90-98): the
type tag, the raw pointer (0 models null), the ownership flag, the byte
length, and whether the small-buffer optimization is active (that is,
small_buffer.is_some()).  The data field models the bytes of the region
the pointer points to. -/
structure CData where
  ctype : CType
  ptr : Nat
  owned : Bool
  size : Nat
  small : Bool
  data : List Nat

/-- The host dynamic value (the mlua LuaValue variants this core
consumes).  Numbers carry the 64-bit pattern of their f64; strings carry
their bytes; tables are modelled by their 1-based integer-keyed part and
their string-keyed part (indexing a table at an absent key yields nil, as
mlua Table::get does); userdata carries the CData it wraps. -/
inductive LuaValue where
  | nil
  | boolean (b : Bool)
  | integer (i : Int)
  | number (bits : Nat)
  | str (bytes : List Nat)
  | table (arr : List LuaValue) (named : List (String × LuaValue))
  | userdata (cd : CData)

/-- Table lookup at a 1-based integer key (absent keys read as nil). -/
def tableGetIdx (arr : List LuaValue) (i : Nat) : LuaValue :=
  (arr.drop i).headD .nil

/-- Table lookup at a string key (absent keys read as nil). -/
def tableGetName (named : List (String × LuaValue)) (k : String) : LuaValue :=
  match named.find? (fun p => p.1 = k) with
  | some p => p.2
  | none => .nil

/-- CData::new (src/src/cdata.rs lines 102-135).  Allocated memory is
modelled at the abstract nonzero address 1.  The small-buffer path zeroes
its inline array; the heap path allocates with
Layout::from_size_align(size, ctype.alignment()) and leaves the bytes
uninitialized (modelled as zeros; no claim reads bytes it has not
written).  from_size_align never fails here because the alignment is a
nonzero power of two and the claims keep sizes far below isize::MAX. -/
def CData.new (ctype : CType) (size : Nat) : CData :=
  if size ≤ SMALL_BUFFER_SIZE ∧ 0 < size then
    { ctype := ctype, ptr := 1, owned := true, size := size,
      small := true, data := List.replicate size 0 }
  else if 0 < size then
    { ctype := ctype, ptr := 1, owned := true, size := size,
      small := false, data := List.replicate size 0 }
  else
    { ctype := ctype, ptr := 0, owned := false, size := 0,
      small := false, data := [] }

/-- CData::from_ptr (src/src/cdata.rs lines 148-157): wrap an address,
deriving the recorded size from the type; the data argument models the
bytes currently at that address. -/
def CData.from_ptr (ctype : CType) (ptr : Nat) (owned : Bool)
    (data : List Nat) : CData :=
  { ctype := ctype, ptr := ptr, owned := owned, size := ctype.size,
    small := false, data := data }

/-- A size/alignment pair handed to the allocator (std::alloc::Layout). -/
structure AllocLayout where
  size : Nat
  align : Nat
  deriving DecidableEq

/-- The layout the heap path of CData::new requests from the allocator. -/
def CData.heapLayout (ctype : CType) (size : Nat) : AllocLayout :=
  ⟨size, ctype.alignment⟩

/-- Drop for CData (src/src/cdata.rs lines 170-182): the deallocation the
drop glue performs, if any.  It deallocates exactly when the guard
owned && !ptr.is_null() && size > 0 && small_buffer.is_none() holds,
rebuilding the layout from the stored size and the type alignment.  Rust
runs the drop glue exactly once per value, so this action is the one
release the value ever performs. -/
def CData.dropFrees (cd : CData) : Option AllocLayout :=
  if cd.owned = true ∧ cd.ptr ≠ 0 ∧ 0 < cd.size ∧ cd.small = false then
    some ⟨cd.size, cd.ctype.alignment⟩
  else none

/-- For each CType variant the marshalling engine reads and writes through
a Rust integer type, the byte width and signedness of that Rust type on
linux x86_64: i32 for Int, isize for Long, usize for ULong and SizeT, i8
for Char, and the libc widths for the POSIX aliases (u64 ino_t and dev_t
and nlink_t, u32 gid_t and mode_t and uid_t and useconds_t, i64 off_t and
suseconds_t and blksize_t and blkcnt_t and time_t, i32 pid_t). -/
def intTarget : CType → Option (Nat × Bool)
  | .int => some (4, true)
  | .uint => some (4, false)
  | .long => some (8, true)
  | .ulong => some (8, false)
  | .longlong => some (8, true)
  | .ulonglong => some (8, false)
  | .char => some (1, true)
  | .uchar => some (1, false)
  | .short => some (2, true)
  | .ushort => some (2, false)
  | .int8 => some (1, true)
  | .int16 => some (2, true)
  | .int32 => some (4, true)
  | .int64 => some (8, true)
  | .uint8 => some (1, false)
  | .uint16 => some (2, false)
  | .uint32 => some (4, false)
  | .uint64 => some (8, false)
  | .sizeT => some (8, false)
  | .ssizeT => some (8, true)
  | .posix p => some (match p with
      | .inoT => (8, false) | .devT => (8, false) | .gidT => (4, false)
      | .modeT => (4, false) | .nlinkT => (8, false) | .uidT => (4, false)
      | .offT => (8, true) | .pidT => (4, true) | .usecondsT => (4, false)
      | .susecondsT => (8, true) | .blksizeT => (8, true)
      | .blkcntT => (8, true) | .timeT => (8, true))
  | _ => none

/-- read_ctype_value (src/src/cdata.rs lines 10-85): decode the bytes at
the pointer (buffer plus offset) per the type.  Integer loads widen to the
64-bit Lua integer: signed sources sign-extend, unsigned sources below 64
bits zero-extend, and 64-bit unsigned sources pass through `as i64` and
wrap.  Float loads widen f32 to f64.  The catch-all arm wraps the address
in a new non-owning CData of the same type (within the buffer model a
derived pointer is identified with its offset). -/
def read_ctype_value (buf : List Nat) (off : Nat) (ctype : CType) : LuaValue :=
  match intTarget ctype with
  | some (w, signed) =>
    let n := fromLEBytes (readBytes buf off w)
    .integer (if signed then decodeSigned w n
              else if w = 8 then decodeSigned 8 n else (n : Int))
  | none =>
    match ctype with
    | .float => .number (f32BitsAsF64 (fromLEBytes (readBytes buf off 4)))
    | .double => .number (fromLEBytes (readBytes buf off 8))
    | .bool => .boolean (fromLEBytes (readBytes buf off 1) != 0)
    | t => .userdata (CData.from_ptr t off false (readBytes buf off t.size))

/-- The write_numeric macro (src/src/cdata.rs lines 340-351 and
src/src/ffi_ops.rs lines 97-108) for a w-byte integer target: accept a Lua
integer (narrowed to the low 8*w bits, the two's complement wraparound of
a Rust integer `as` cast) or a Lua number (truncated toward zero and
saturated to the target range, NaN to 0, per Rust float-to-int `as`
semantics); anything else is the Expected-number error. -/
def write_numeric (w : Nat) (signed : Bool) (v : LuaValue) : Except String Nat :=
  match v with
  | .integer i => .ok (intWrapBits w i)
  | .number bits => .ok (intWrapBits w (f64AsInt bits w signed))
  | _ => .error "Expected number"

/-- write_value_to_ptr of src/src/cdata.rs (lines 354-450): the scalar and
pointer arms; every other type falls to the Cannot-assign error arm.  The
float and double arms are the same write_numeric macro instantiated at f32
and f64: a host number narrows to f32 (f64BitsAsF32) or stores its own
pattern, a host integer converts by the integer-to-float casts above. -/
def write_value_to_ptr_cd (buf : List Nat) (off : Nat) (ctype : CType)
    (v : LuaValue) : Except String (List Nat) :=
  match intTarget ctype with
  | some (w, signed) =>
    match write_numeric w signed v with
    | .ok bitsv => .ok (writeBytes buf off (toLEBytes w bitsv))
    | .error e => .error e
  | none =>
    match ctype with
    | .float =>
      match v with
      | .integer i => .ok (writeBytes buf off (toLEBytes 4 (intAsF32Bits i)))
      | .number bits => .ok (writeBytes buf off (toLEBytes 4 (f64BitsAsF32 bits)))
      | _ => .error "Expected number"
    | .double =>
      match v with
      | .integer i => .ok (writeBytes buf off (toLEBytes 8 (intAsF64Bits i)))
      | .number bits => .ok (writeBytes buf off (toLEBytes 8 (bits % 2 ^ 64)))
      | _ => .error "Expected number"
    | .bool =>
      match v with
      | .boolean b => .ok (writeBytes buf off [if b then 1 else 0])
      | .integer i => .ok (writeBytes buf off [if i ≠ 0 then 1 else 0])
      | _ => .error "Expected boolean or integer"
    | .ptr _ =>
      match v with
      | .integer i => .ok (writeBytes buf off (toLEBytes 8 (intWrapBits 8 i)))
      | .userdata cd => .ok (writeBytes buf off (toLEBytes 8 (cd.ptr % 2 ^ 64)))
      | _ => .error "Expected pointer value (integer or cdata)"
    | _ => .error "Cannot assign value to type"


/-- The loop of calculate_field_offsets (src/src/parser.rs lines 75-84)
from a given running byte cursor: round the cursor up to the field
alignment with the bit expression, record it as the offset, then advance
the cursor by the field size. -/
def calcFieldOffsetsFrom (cursor : Nat) : List CField → List CField
  | [] => []
  | .mk n t _ :: rest =>
    let off := alignUpBits cursor t.alignment
    .mk n t off :: calcFieldOffsetsFrom (off + t.size) rest

/-- calculate_field_offsets (src/src/parser.rs lines 75-84), starting the
cursor at 0. -/
def calculate_field_offsets (fields : List CField) : List CField :=
  calcFieldOffsetsFrom 0 fields

/-- The global type registry (TYPE_REGISTRY of src/src/ffi_ops.rs line
38), modelled as an association list threaded through the operations. -/
abbrev Registry := List (String × CType)

/-- register_type (src/src/ffi_ops.rs lines 39-41); a new entry shadows
any earlier entry under the same name, as HashMap::insert replaces. -/
def register_type (reg : Registry) (name : String) (t : CType) : Registry :=
  (name, t) :: reg

/-- lookup_registered_type (src/src/ffi_ops.rs lines 43-46). -/
def lookup_registered_type (reg : Registry) (name : String) : Option CType :=
  match reg.find? (fun p => p.1 = name) with
  | some p => some p.2
  | none => none

/-- The BASIC_TYPES perfect hash map (src/src/ffi_ops.rs lines 12-35). -/
def lookup_basic_type (name : String) : Option CType :=
  match name with
  | "int" => some .int
  | "unsigned int" => some .uint
  | "char" => some .char
  | "unsigned char" => some .uchar
  | "short" => some .short
  | "unsigned short" => some .ushort
  | "long" => some .long
  | "unsigned long" => some .ulong
  | "float" => some .float
  | "double" => some .double
  | "void" => some .void
  | "bool" => some .bool
  | "int8_t" => some .int8
  | "int16_t" => some .int16
  | "int32_t" => some .int32
  | "int64_t" => some .int64
  | "uint8_t" => some .uint8
  | "uint16_t" => some .uint16
  | "uint32_t" => some .uint32
  | "uint64_t" => some .uint64
  | "size_t" => some .sizeT
  | "ssize_t" => some .ssizeT
  | _ => none

/-- Rust str::trim on a character list (strip leading and trailing
whitespace). -/
def trimList (s : List Char) : List Char :=
  ((s.dropWhile Char.isWhitespace).reverse.dropWhile Char.isWhitespace).reverse

/-- Rust str::trim_start_matches with a literal pattern: strip every
consecutive occurrence of the pattern from the front.  The first argument
is fuel; the wrapper below supplies enough for the whole input. -/
def trimStartMatchesF : Nat → List Char → List Char → List Char
  | 0, _, s => s
  | fuel + 1, pat, s =>
    if pat ≠ [] ∧ pat.isPrefixOf s then trimStartMatchesF fuel pat (s.drop pat.length)
    else s

/-- Rust str::trim_start_matches (each strip removes at least one
character, so fuel equal to the length never runs out). -/
def trimStartMatches (pat s : List Char) : List Char :=
  trimStartMatchesF s.length pat s

/-- Rust str::parse::<usize> on a trimmed digit string. -/
def parseUsize (s : List Char) : Option Nat :=
  if s ≠ [] ∧ s.all Char.isDigit then
    some (s.foldl (fun a c => a * 10 + (c.toNat - 48)) 0)
  else none

/-- The qualifier stripping at the head of lookup_type (src/src/ffi_ops.rs
lines 546-554): trim, then strip repeated const, volatile and restrict
prefixes, trimming in between. -/
def stripQualifiers (s : List Char) : List Char :=
  trimList (trimStartMatches "restrict".toList
    (trimList (trimStartMatches "volatile".toList
      (trimList (trimStartMatches "const".toList (trimList s))))))

/-- lookup_type (src/src/ffi_ops.rs lines 545-598): basic types first,
then a trailing asterisk (all trailing asterisks are stripped at once and
a single Ptr is wrapped), then a bracket suffix (a question mark yields
VLA, an empty size yields a zero-length array, digits yield a fixed
count), finally the registry.  The first argument is fuel; every recursive
call strips at least one character, so the wrapper below never exhausts
it.  On an input whose first close bracket precedes its open bracket Rust
would panic slicing; the model reads an empty size string there. -/
def lookupTypeF : Nat → Registry → List Char → Except String CType
  | 0, _, _ => .error "Unknown type"
  | fuel + 1, reg, s =>
    let stripped := stripQualifiers s
    match lookup_basic_type (String.mk stripped) with
    | some t => .ok t
    | none =>
      if stripped.getLast? = some '*' then
        let base := trimList (stripped.reverse.dropWhile (fun c => c = '*')).reverse
        match lookupTypeF fuel reg base with
        | .ok inner => .ok (.ptr inner)
        | .error e => .error e
      else
        match stripped.findIdx? (fun c => c = '[') with
        | some ob =>
          let base := trimList (stripped.take ob)
          match lookupTypeF fuel reg base with
          | .ok inner =>
            match stripped.findIdx? (fun c => c = ']') with
            | none => .error "Invalid array type"
            | some cb =>
              let sizeStr := trimList ((stripped.take cb).drop (ob + 1))
              if sizeStr = ['?'] then .ok (.vla inner)
              else if sizeStr = [] then .ok (.array inner 0)
              else
                match parseUsize sizeStr with
                | some n => .ok (.array inner n)
                | none => .error "Invalid array size"
          | .error e => .error e
        | none =>
          match lookup_registered_type reg (String.mk stripped) with
          | some t => .ok t
          | none => .error "Unknown type"

/-- lookup_type on a host string. -/
def lookup_type (reg : Registry) (name : String) : Except String CType :=
  lookupTypeF (name.toList.length + 1) reg name.toList

/-- The matches!(t, CType::Char | CType::UChar) test used by the string
arms of the pointer and array writes. -/
def CType.isCharLike : CType → Bool
  | .char | .uchar => true
  | _ => false

mutual
/-- write_value_to_ptr of src/src/ffi_ops.rs (lines 111-318).  The scalar
arms coincide with the cdata.rs copy above.  The pointer arm additionally
accepts a string for char or unsigned char pointees (storing the address
of the string bytes, an address the model does not track, as the fixed
token 2) and nil (storing 0).  The VLA arm is the
must-be-instantiated error.  Arrays initialize from a table (every index
is fetched, absent ones read as nil) or from a string for char element
types; structs initialize every field from a table; unions initialize
only their first field, because the for loop breaks after the first
fetch and mlua table indexing always succeeds; typedefs forward to the
inner type; void rejects every write; functions accept an integer or a
cdata address. -/
def write_value_to_ptr_ops (buf : List Nat) (off : Nat) (ctype : CType)
    (v : LuaValue) : Except String (List Nat) :=
  match intTarget ctype with
  | some (w, signed) =>
    match write_numeric w signed v with
    | .ok bitsv => .ok (writeBytes buf off (toLEBytes w bitsv))
    | .error e => .error e
  | none =>
    match ctype with
    | .float =>
      match v with
      | .integer i => .ok (writeBytes buf off (toLEBytes 4 (intAsF32Bits i)))
      | .number bits => .ok (writeBytes buf off (toLEBytes 4 (f64BitsAsF32 bits)))
      | _ => .error "Expected number"
    | .double =>
      match v with
      | .integer i => .ok (writeBytes buf off (toLEBytes 8 (intAsF64Bits i)))
      | .number bits => .ok (writeBytes buf off (toLEBytes 8 (bits % 2 ^ 64)))
      | _ => .error "Expected number"
    | .bool =>
      match v with
      | .boolean b => .ok (writeBytes buf off [if b then 1 else 0])
      | .integer i => .ok (writeBytes buf off [if i ≠ 0 then 1 else 0])
      | _ => .error "Expected boolean or integer"
    | .ptr inner =>
      match v with
      | .integer i => .ok (writeBytes buf off (toLEBytes 8 (intWrapBits 8 i)))
      | .userdata cd => .ok (writeBytes buf off (toLEBytes 8 (cd.ptr % 2 ^ 64)))
      | .str _ =>
        if inner.isCharLike then
          .ok (writeBytes buf off (toLEBytes 8 2))
        else .error "Expected pointer value"
      | .nil => .ok (writeBytes buf off (toLEBytes 8 0))
      | _ => .error "Expected pointer value"
    | .vla _ => .error "VLA must be instantiated with a size before use"
    | .array elem count =>
      match v with
      | .table arr _ => writeArrayElemsOps buf off elem elem.size arr 0 count
      | .str bytes =>
        if elem.isCharLike then
          let copyLen := min count bytes.length
          let buf1 := writeBytes buf off (bytes.take copyLen)
          if copyLen < count then .ok (writeBytes buf1 (off + copyLen) [0])
          else .ok buf1
        else .error "String initialization only supported for char arrays"
      | _ => .error "Array initialization requires a table or string"
    | .struct _ fields =>
      match v with
      | .table _ named => writeStructFieldsOps buf off fields named
      | _ => .error "Struct initialization requires a table"
    | .union _ fields =>
      match v with
      | .table _ named =>
        match fields with
        | [] => .ok buf
        | .mk fn t foff :: _ =>
          write_value_to_ptr_ops buf (off + foff) t (tableGetName named fn)
      | _ => .error "Union initialization requires a table"
    | .typedef _ inner => write_value_to_ptr_ops buf off inner v
    | .void => .error "Cannot assign value to void type"
    | .function _ _ =>
      match v with
      | .integer i => .ok (writeBytes buf off (toLEBytes 8 (intWrapBits 8 i)))
      | .userdata cd => .ok (writeBytes buf off (toLEBytes 8 (cd.ptr % 2 ^ 64)))
      | _ => .error "Function pointer requires integer or cdata"
    | _ => .error "Cannot assign value to type"
termination_by (sizeOf ctype, 0)

/-- The array initialization loop of write_value_to_ptr (and of
initialize_cdata): for each index below count, fetch the 1-based table
entry and write it at base + index * element size. -/
def writeArrayElemsOps (buf : List Nat) (base : Nat) (elem : CType)
    (elemSize : Nat) (arr : List LuaValue) (i : Nat) (remaining : Nat) :
    Except String (List Nat) :=
  match remaining with
  | 0 => .ok buf
  | k + 1 =>
    match write_value_to_ptr_ops buf (base + i * elemSize) elem (tableGetIdx arr i) with
    | .ok buf1 => writeArrayElemsOps buf1 base elem elemSize arr (i + 1) k
    | .error e => .error e
termination_by (sizeOf elem, remaining + 1)

/-- The struct-field initialization loop of write_value_to_ptr (and of
initialize_cdata): fetch each field name from the table and write it at
base + field offset. -/
def writeStructFieldsOps (buf : List Nat) (base : Nat) (fields : List CField)
    (named : List (String × LuaValue)) : Except String (List Nat) :=
  match fields with
  | [] => .ok buf
  | .mk fn t foff :: rest =>
    match write_value_to_ptr_ops buf (base + foff) t (tableGetName named fn) with
    | .ok buf1 => writeStructFieldsOps buf1 base rest named
    | .error e => .error e
termination_by (sizeOf fields, 0)
end

/-- initialize_cdata (src/src/ffi_ops.rs lines 321-365): a null pointer or
a zero size returns Ok immediately, touching nothing; struct and union
types initialize every field from a table (both variants share the arm —
unlike write_value_to_ptr there is no break), arrays initialize every
index from a table, and every other type writes the value directly as a
scalar. -/
def initialize_cdata (cd : CData) (v : LuaValue) : Except String CData :=
  if cd.ptr = 0 ∨ cd.size = 0 then .ok cd
  else
    match cd.ctype with
    | .struct _ fields | .union _ fields =>
      match v with
      | .table _ named =>
        match writeStructFieldsOps cd.data 0 fields named with
        | .ok buf => .ok { cd with data := buf }
        | .error e => .error e
      | _ => .error "Struct/union initialization requires a table"
    | .array elem count =>
      match v with
      | .table arr _ =>
        match writeArrayElemsOps cd.data 0 elem elem.size arr 0 count with
        | .ok buf => .ok { cd with data := buf }
        | .error e => .error e
      | _ => .error "Array initialization requires a table"
    | t =>
      match write_value_to_ptr_ops cd.data 0 t v with
      | .ok buf => .ok { cd with data := buf }
      | .error e => .error e

/-- new_cdata (src/src/ffi_ops.rs lines 47-94) after the type-name lookup.
A VLA type demands a numeric element count from the init argument — a
nonnegative integer, or a nonnegative finite number put through the usize
cast — converts itself to a concrete Array of that count whose byte size
is the element size times the count, and drops the init; every other type
allocates its own size and, when an init value is present, initializes
the fresh value.  The byte size is the usize product elem_size * count
(src/src/ffi_ops.rs line 75), a 64-bit multiply that wraps in release
builds, so the model reduces the product modulo 2 to the 64. -/
def new_cdata_with (ctype : CType) (init : Option LuaValue) :
    Except String CData :=
  match ctype with
  | .vla elem =>
    match init with
    | some (.integer i) =>
      if 0 ≤ i then
        .ok (CData.new (.array elem i.toNat) (elem.size * i.toNat % 2 ^ 64))
      else .error "VLA size must be non-negative"
    | some (.number bits) =>
      if f64Ge0 bits && f64IsFinite bits then
        let count := (f64AsInt bits 8 false).toNat
        .ok (CData.new (.array elem count) (elem.size * count % 2 ^ 64))
      else .error "VLA size must be non-negative"
    | some _ => .error "VLA requires a numeric size as initialization parameter"
    | none => .error "VLA requires a size parameter"
  | t =>
    let cd := CData.new t t.size
    match init with
    | some v => initialize_cdata cd v
    | none => .ok cd

/-- new_cdata including the leading lookup_type call. -/
def new_cdata (reg : Registry) (typeName : String) (init : Option LuaValue) :
    Except String CData :=
  match lookup_type reg typeName with
  | .ok t => new_cdata_with t init
  | .error e => .error e

/-- Bytes read from a source region for a raw copy of n bytes: reading
past the modelled bytes is out of bounds in Rust; the model pads with
zeros (only the unchecked-copy path can reach that region). -/
def takePad (n : Nat) (bs : List Nat) : List Nat :=
  bs.take n ++ List.replicate (n - bs.length) 0

/-- copy_memory (src/src/ffi_ops.rs lines 491-530).  A string source takes
its own length as the default count, rejects counts above the recorded
destination size before writing anything, copies, and null-terminates
when no explicit count was passed and room remains.  A cdata source
requires an explicit count and copies it unchecked: that path has no
bound test against the destination size. -/
def copy_memory (dst : CData) (src : LuaValue) (len : Option Nat) :
    Except String (Nat × CData) :=
  match src with
  | .str bytes =>
    let copyLen := len.getD bytes.length
    if dst.size < copyLen then .error "Buffer overflow"
    else
      let buf1 := writeBytes dst.data 0 (takePad copyLen bytes)
      if len = none ∧ copyLen < dst.size then
        .ok (copyLen, { dst with data := writeBytes buf1 copyLen [0] })
      else .ok (copyLen, { dst with data := buf1 })
  | .userdata srcCd =>
    match len with
    | none => .error "Length required for cdata copy"
    | some l =>
      .ok (l, { dst with data := writeBytes dst.data 0 (takePad l srcCd.data) })
  | _ => .error "Invalid source for copy"

/-- The field search loop of offsetof_field. -/
def findFieldOffset : List CField → String → Except String Nat
  | [], _ => .error "Field not found"
  | .mk n _ off :: rest, field =>
    if n = field then .ok off else findFieldOffset rest field

/-- offsetof_field (src/src/ffi_ops.rs lines 422-439): resolve the name,
demand a struct or union, and return the stored offset of the named
field. -/
def offsetof_field (reg : Registry) (typeName field : String) :
    Except String Nat :=
  match lookup_type reg typeName with
  | .error e => .error e
  | .ok t =>
    match t with
    | .struct _ fields | .union _ fields => findFieldOffset fields field
    | _ => .error "Not a struct or union"

/-- sizeof_type (src/src/ffi_ops.rs lines 417-420). -/
def sizeof_type (reg : Registry) (typeName : String) : Except String Nat :=
  match lookup_type reg typeName with
  | .ok t => .ok t.size
  | .error e => .error e

/-- nom multispace0: consume any leading whitespace. -/
def pMultispace0 (s : List Char) : List Char := s.dropWhile Char.isWhitespace

/-- nom multispace1: demand at least one whitespace character. -/
def pMultispace1 (s : List Char) : Option (List Char) :=
  match s with
  | c :: rest => if c.isWhitespace then some (pMultispace0 rest) else none
  | [] => none

/-- nom tag: match a literal. -/
def pTag (pat s : List Char) : Option (List Char) :=
  if pat.isPrefixOf s then some (s.drop pat.length) else none

/-- nom char: match a single character. -/
def pChar (c : Char) (s : List Char) : Option (List Char) :=
  match s with
  | c0 :: rest => if c0 = c then some rest else none
  | [] => none

/-- nom take_while1 for a predicate: one or more matching characters. -/
def pTakeWhile1 (p : Char → Bool) (s : List Char) :
    Option (List Char × List Char) :=
  let ds := s.takeWhile p
  if ds = [] then none else some (s.drop ds.length, ds)

/-- nom digit1: one or more ASCII digits. -/
def pDigit1 (s : List Char) : Option (List Char × List Char) :=
  pTakeWhile1 Char.isDigit s

/-- identifier (src/src/parser.rs lines 160-162): take_while1 of
alphanumeric or underscore characters. -/
def pIdentifier (s : List Char) : Option (List Char × List Char) :=
  pTakeWhile1 (fun c => c.isAlphanum || c == '_') s

/-- parse_type (src/src/parser.rs lines 119-131): read an identifier, try
lookup_type on it, and fall back to a typedef placeholder wrapping Int
for unknown names (the deliberate forward-reference leniency). -/
def parse_type (reg : Registry) (s : List Char) : Option (List Char × CType) :=
  match pIdentifier s with
  | none => none
  | some (rest, ident) =>
    match lookup_type reg (String.mk ident) with
    | .ok t => some (rest, t)
    | .error _ => some (rest, .typedef (String.mk ident) .int)

/-- parse_array_size (src/src/parser.rs lines 133-139). -/
def parse_array_size (s : List Char) : Option (List Char × Nat) :=
  match pChar '[' s with
  | none => none
  | some s1 =>
    match pDigit1 s1 with
    | none => none
    | some (s2, ds) =>
      match pChar ']' s2 with
      | none => none
      | some s3 => some (s3, ds.foldl (fun a c => a * 10 + (c.toNat - 48)) 0)

/-- parse_field (src/src/parser.rs lines 94-116): whitespace, a type
name, mandatory whitespace, the field name, an optional bracketed array
size (wrapping the field type in an Array), trailing whitespace; the
offset starts at 0 and is assigned by the later layout pass. -/
def parse_field (reg : Registry) (s : List Char) :
    Option (List Char × CField) :=
  let s0 := pMultispace0 s
  match parse_type reg s0 with
  | none => none
  | some (s1, fieldTy) =>
    match pMultispace1 s1 with
    | none => none
    | some s2 =>
      match pIdentifier s2 with
      | none => none
      | some (s3, nm) =>
        match parse_array_size s3 with
        | some (s4, n) =>
          some (pMultispace0 s4, .mk (String.mk nm) (.array fieldTy n) 0)
        | none => some (pMultispace0 s3, .mk (String.mk nm) fieldTy 0)

/-- The loop of nom separated_list0(char(semicolon), parse_field) after
its first element: each separator is consumed only when another element
follows (otherwise it is backtracked).  Fueled by the input length; each
iteration consumes at least the separator, so the callers below never
exhaust it (the nom zero-consumption guard is unreachable for this
grammar because the separator is one character). -/
def sepFieldsLoop (reg : Registry) :
    Nat → List Char → List CField → Option (List Char × List CField)
  | 0, _, _ => none
  | fuel + 1, s, acc =>
    match pChar ';' s with
    | none => some (s, acc.reverse)
    | some s1 =>
      match parse_field reg s1 with
      | none => some (s, acc.reverse)
      | some (s2, f) => sepFieldsLoop reg fuel s2 (f :: acc)

/-- parse_struct_fields (src/src/parser.rs lines 86-92): whitespace, the
semicolon-separated field list, an optional trailing semicolon, trailing
whitespace. -/
def parse_struct_fields (reg : Registry) (s : List Char) :
    Option (List Char × List CField) :=
  let s0 := pMultispace0 s
  match parse_field reg s0 with
  | none =>
    let s1 := match pChar ';' s0 with | some r => r | none => s0
    some (pMultispace0 s1, [])
  | some (s1, f) =>
    match sepFieldsLoop reg (s1.length + 1) s1 [f] with
    | none => none
    | some (s2, fs) =>
      let s3 := match pChar ';' s2 with | some r => r | none => s2
      some (pMultispace0 s3, fs)

/-- parse_struct (src/src/parser.rs lines 50-71): the struct keyword, the
name, the braced field list, the mandatory trailing semicolon; then
calculate_field_offsets runs and the named struct registers itself.  On
any failure nothing registers, because registration is the last step. -/
def parse_struct (reg : Registry) (s : List Char) :
    Option (Registry × List Char × CType) :=
  let s0 := pMultispace0 s
  match pTag "struct".toList s0 with
  | none => none
  | some s1 =>
    match pMultispace1 s1 with
    | none => none
    | some s2 =>
      match pIdentifier s2 with
      | none => none
      | some (s3, nm) =>
        let s4 := pMultispace0 s3
        match pChar '{' s4 with
        | none => none
        | some s5 =>
          match parse_struct_fields reg s5 with
          | none => none
          | some (s6, fields0) =>
            match pChar '}' s6 with
            | none => none
            | some s7 =>
              let s8 := pMultispace0 s7
              match pChar ';' s8 with
              | none => none
              | some s9 =>
                let s10 := pMultispace0 s9
                let fields := calculate_field_offsets fields0
                let ct := CType.struct (String.mk nm) fields
                some (register_type reg (String.mk nm) ct, s10, ct)

/-- parse_typedef (src/src/parser.rs lines 141-149): the typedef keyword,
whitespace, then everything up to a mandatory semicolon, consumed and
discarded (no descriptor is produced). -/
def parse_typedef (s : List Char) : Option (List Char) :=
  let s0 := pMultispace0 s
  match pTag "typedef".toList s0 with
  | none => none
  | some s1 =>
    match pMultispace1 s1 with
    | none => none
    | some s2 =>
      let s3 := s2.dropWhile (fun c => c != ';')
      match pChar ';' s3 with
      | none => none
      | some s4 => some s4

/-- parse_function (src/src/parser.rs lines 151-158): consume at least
one character up to a semicolon or newline, an optional semicolon, and
trailing whitespace.  This is the skip-anything fallback of the
declaration alternation. -/
def parse_function (s : List Char) : Option (List Char) :=
  match pTakeWhile1 (fun c => c != ';' && c != '\n') s with
  | none => none
  | some (s1, _) =>
    let s2 := match pChar ';' s1 with | some r => r | none => s1
    some (pMultispace0 s2)

/-- parse_declaration (src/src/parser.rs lines 34-48): skip whitespace,
fail on empty input, then try struct, typedef and the function skipper in
order; nom alt hands each branch the same input (a failed branch
consumes nothing). -/
def parse_declaration (reg : Registry) (s : List Char) :
    Option (Registry × List Char) :=
  let s0 := pMultispace0 s
  if s0 = [] then none
  else
    match parse_struct reg s0 with
    | some (reg1, s1, _) => some (reg1, s1)
    | none =>
      match parse_typedef s0 with
      | some s1 => some (reg, s1)
      | none =>
        match parse_function s0 with
        | some s1 => some (reg, s1)
        | none => none

/-- nom many0(parse_declaration): stop at the first failing iteration,
keeping what the successful ones consumed and registered, and fail (as
nom many0 does) if an iteration consumes nothing.  Fueled by the input
length; every successful declaration consumes at least one character, so
the wrapper below never exhausts it. -/
def many0Decls (reg : Registry) :
    Nat → List Char → Option (Registry × List Char)
  | 0, _ => none
  | fuel + 1, s =>
    match parse_declaration reg s with
    | none => some (reg, s)
    | some (reg1, s1) =>
      if s1.length = s.length then none
      else many0Decls reg1 fuel s1

/-- parse_cdef (src/src/parser.rs lines 14-31): run the declaration list,
then demand that only whitespace remains; otherwise report the unparsed
remainder.  The returned registry keeps every registration made by the
declarations that were consumed (registration is immediate and global in
the source, so it persists even when an error follows). -/
def parse_cdef (reg : Registry) (code : String) : Registry × Except String Unit :=
  match many0Decls reg (code.toList.length + 1) code.toList with
  | none => (reg, .error "Parse error")
  | some (reg1, rest) =>
    if trimList rest = [] then (reg1, .ok ())
    else (reg1, .error "Unparsed input remaining")

/-- Claim-side rounding, following the words of the spec: the cursor
rounded up to the next multiple of the alignment, written
arithmetically. -/
def specRoundUp (cursor align : Nat) : Nat := (cursor + align - 1) / align * align

/-- Claim-side layout recurrence, following the words of the spec: each
field offset is the running cursor rounded up to the field alignment, and
the cursor then advances by the field size. -/
def specLayoutFrom (cursor : Nat) : List CField → List CField
  | [] => []
  | .mk n t _ :: rest =>
    let off := specRoundUp cursor t.alignment
    .mk n t off :: specLayoutFrom (off + t.size) rest

/-- Claim-side layout of a whole field list, cursor starting at 0. -/
def specLayoutFields (fields : List CField) : List CField :=
  specLayoutFrom 0 fields

/-- The scalar type descriptors: the value-bearing scalars (every integer
alias, the booleans and the floating types); void carries no value and is
rejected by the write engine, so it is not a scalar here. -/
def CType.isScalar : CType → Bool
  | .float | .double | .bool => true
  | t => (intTarget t).isSome

/-- The f64 bit patterns whose value binary32 represents exactly and in
binary32 normal-or-zero form: the native range of the Float scalar used
for the round-trip property. -/
def f32ExactRange (bits : Nat) : Bool :=
  decide (bits < 2 ^ 64) &&
    ((decide (bits / 2 ^ 52 % 2 ^ 11 = 0) && decide (bits % 2 ^ 52 = 0)) ||
     (decide (897 ≤ bits / 2 ^ 52 % 2 ^ 11) && decide (bits / 2 ^ 52 % 2 ^ 11 ≤ 1150) &&
      decide (bits % 2 ^ 52 % 2 ^ 29 = 0)))

/-- A host value inside the native range of a scalar type: for an integer
scalar, a host integer within both the field range and the 64-bit host
integer range; for bool, a host boolean; for double, any host number; for
float, a host number whose pattern binary32 represents exactly. -/
def scalarInRange (t : CType) (v : LuaValue) : Bool :=
  match intTarget t with
  | some (w, signed) =>
    match v with
    | .integer i =>
      (if signed then decide (-(2 ^ (8 * w - 1) : Int) ≤ i) && decide (i < 2 ^ (8 * w - 1))
       else decide (0 ≤ i) && decide (i < (2 ^ (8 * w) : Int))) &&
      decide (-(2 ^ 63 : Int) ≤ i) && decide (i < (2 ^ 63 : Int))
    | _ => false
  | none =>
    match t, v with
    | .bool, .boolean _ => true
    | .double, .number bits => decide (bits < 2 ^ 64)
    | .float, .number bits => f32ExactRange bits
    | _, _ => false

/-- Whether a host value is numeric (a Lua integer or number), the guard
class of the VLA count match. -/
def LuaValue.isNumeric : LuaValue → Bool
  | .integer _ | .number _ => true
  | _ => false

mutual
/-- Every alignment the type algebra produces is 1, 2, 4 or 8. -/
theorem CType.alignment_cases : (t : CType) →
    t.alignment = 1 ∨ t.alignment = 2 ∨ t.alignment = 4 ∨ t.alignment = 8
  | .bool => .inl rfl
  | .char | .uchar | .int8 | .uint8 => .inl rfl
  | .short | .ushort | .int16 | .uint16 => .inr (.inl rfl)
  | .int | .uint | .int32 | .uint32 | .float => .inr (.inr (.inl rfl))
  | .long | .ulong | .longlong | .ulonglong | .int64 | .uint64 | .double =>
      .inr (.inr (.inr rfl))
  | .sizeT | .ssizeT => .inr (.inr (.inr rfl))
  | .void => .inl rfl
  | .ptr _ | .function _ _ => .inr (.inr (.inr rfl))
  | .array inner _ | .typedef _ inner | .vla inner => CType.alignment_cases inner
  | .posix _ => .inr (.inr (.inr rfl))
  | .struct _ fields | .union _ fields => by
      cases hm : CType.fieldsMaxAlign fields with
      | none => simp [CType.alignment, hm]
      | some m =>
        have h := CType.fieldsMaxAlign_cases fields m hm
        simp only [CType.alignment, hm, Option.getD_some]
        exact h

/-- Every field-list alignment maximum is 1, 2, 4 or 8. -/
theorem CType.fieldsMaxAlign_cases : (fs : List CField) → ∀ m,
    CType.fieldsMaxAlign fs = some m → m = 1 ∨ m = 2 ∨ m = 4 ∨ m = 8
  | [], m, h => by simp [CType.fieldsMaxAlign] at h
  | .mk _ t _ :: rest, m, h => by
      have ht := CType.alignment_cases t
      rw [CType.fieldsMaxAlign] at h
      cases hr : CType.fieldsMaxAlign rest with
      | none =>
        rw [hr] at h
        simp only [Option.some_inj] at h
        omega
      | some m2 =>
        have h2 := CType.fieldsMaxAlign_cases rest m2 hr
        rw [hr] at h
        simp only [Option.some_inj] at h
        omega
end

/-- Alignments are positive. -/
theorem CType.alignment_pos (t : CType) : 0 < t.alignment := by
  have := CType.alignment_cases t; omega

/-- Alignments are at most 8. -/
theorem CType.alignment_le_8 (t : CType) : t.alignment ≤ 8 := by
  have := CType.alignment_cases t; omega

/-- Alignments are powers of two with exponent at most 3. -/
theorem CType.alignment_isPowTwo (t : CType) :
    ∃ k, k ≤ 3 ∧ t.alignment = 2 ^ k := by
  rcases CType.alignment_cases t with h | h | h | h
  · exact ⟨0, by omega, by rw [h]; rfl⟩
  · exact ⟨1, by omega, by rw [h]; rfl⟩
  · exact ⟨2, by omega, by rw [h]; rfl⟩
  · exact ⟨3, by omega, by rw [h]; rfl⟩

/-- The bit pattern of the usize mask !(align - 1) for a power-of-two
alignment: bits k and above (up to the word width) are set. -/
theorem testBit_highMask (k i : Nat) (hk : k ≤ 64) :
    (2 ^ 64 - 2 ^ k).testBit i = (decide (k ≤ i) && decide (i < 64)) := by
  have hmask : (2 ^ 64 - 2 ^ k) = 2 ^ k * (2 ^ (64 - k) - 1) := by
    rw [Nat.mul_sub, Nat.mul_one, ← pow_add]
    congr 2
    omega
  rw [hmask, Nat.testBit_mul_pow_two, Nat.testBit_two_pow_sub_one]
  by_cases h1 : k ≤ i
  · have e1 : decide (i ≥ k) = true := by simp [ge_iff_le, h1]
    rw [e1]
    simp only [Bool.true_and]
    by_cases h2 : i < 64
    · have h3 : i - k < 64 - k := by omega
      simp [h3, h2]
    · have h3 : ¬(i - k < 64 - k) := by omega
      simp [h3, h2]
  · have e1 : decide (i ≥ k) = false := by simp [ge_iff_le, h1]
    rw [e1]
    simp

/-- Conjunction of a word with the high mask clears the low k bits: the
bit expression of the source equals the arithmetic rounding down to a
multiple of 2 ^ k, for in-word values. -/
theorem land_highMask (k y : Nat) (hk : k ≤ 64) (hy : y < 2 ^ 64) :
    Nat.land y (2 ^ 64 - 2 ^ k) = y / 2 ^ k * 2 ^ k := by
  apply Nat.eq_of_testBit_eq
  intro i
  show (y &&& (2 ^ 64 - 2 ^ k)).testBit i = (y / 2 ^ k * 2 ^ k).testBit i
  rw [Nat.testBit_land, testBit_highMask k i hk]
  rw [Nat.mul_comm, Nat.testBit_mul_pow_two]
  by_cases h1 : k ≤ i
  · have h2 : (y / 2 ^ k).testBit (i - k) = y.testBit i := by
      rw [Nat.testBit_to_div_mod, Nat.testBit_to_div_mod, Nat.div_div_eq_div_mul]
      have h4 : (2 : Nat) ^ k * 2 ^ (i - k) = 2 ^ i := by
        rw [← pow_add]; congr 1; omega
      rw [h4]
    have e1 : decide (i ≥ k) = true := by simp [ge_iff_le, h1]
    rw [e1, h2]
    simp only [Bool.true_and]
    by_cases h3 : i < 64
    · simp [h3]
    · have hbit : y.testBit i = false := by
        apply Nat.testBit_lt_two_pow
        calc y < 2 ^ 64 := hy
          _ ≤ 2 ^ i := Nat.pow_le_pow_right (by omega) (by omega)
      simp [hbit, h3]
  · have e1 : decide (i ≥ k) = false := by simp [ge_iff_le, h1]
    rw [e1]
    simp

/-- The shared rounding expression of the layout engine equals the
arithmetic round-up of the spec for power-of-two alignments, as long as
the intermediate sum stays inside the 64-bit word. -/
theorem alignUpBits_eq_specRoundUp (c a : Nat) (hpow : ∃ k, k ≤ 3 ∧ a = 2 ^ k)
    (hc : c + a - 1 < 2 ^ 64) :
    alignUpBits c a = specRoundUp c a := by
  obtain ⟨k, hk3, rfl⟩ := hpow
  have ha1 : 1 ≤ (2 : Nat) ^ k := Nat.one_le_two_pow
  have hk64 : (2 : Nat) ^ k ≤ 2 ^ 64 := Nat.pow_le_pow_right (by omega) (by omega)
  unfold alignUpBits wordNot specRoundUp
  have h1 : (c + 2 ^ k - 1) % 2 ^ 64 = c + 2 ^ k - 1 := Nat.mod_eq_of_lt hc
  have h2 : (2 ^ k - 1) % 2 ^ 64 = 2 ^ k - 1 := Nat.mod_eq_of_lt (by omega)
  rw [h1, h2]
  have h3 : 2 ^ 64 - 1 - (2 ^ k - 1) = 2 ^ 64 - 2 ^ k := by omega
  rw [h3, land_highMask k _ (by omega) hc]

/-- The arithmetic round-up never falls below the cursor and never
overshoots past cursor + align - 1. -/
theorem specRoundUp_bounds (c a : Nat) (ha : 0 < a) :
    c ≤ specRoundUp c a ∧ specRoundUp c a ≤ c + a - 1 := by
  unfold specRoundUp
  have hdm := Nat.div_add_mod (c + a - 1) a
  have hmod : (c + a - 1) % a < a := Nat.mod_lt _ ha
  constructor
  · have h1 : c ≤ a * ((c + a - 1) / a) := by omega
    rw [Nat.mul_comm] at h1
    exact h1
  · exact Nat.le_trans (Nat.div_mul_le_self _ _) (by omega)

/-- The arithmetic round-up yields a multiple of the alignment. -/
theorem specRoundUp_dvd (c a : Nat) : a ∣ specRoundUp c a :=
  dvd_mul_left a ((c + a - 1) / a)

/-- A little-endian encoding has exactly its width in bytes. -/
theorem toLEBytes_length (w x : Nat) : (toLEBytes w x).length = w := by
  induction w generalizing x with
  | zero => rfl
  | succ w ih => simp [toLEBytes, ih]

/-- Decoding a little-endian encoding recovers the low 8*w bits. -/
theorem fromLEBytes_toLEBytes (w x : Nat) :
    fromLEBytes (toLEBytes w x) = x % 256 ^ w := by
  induction w generalizing x with
  | zero => simp [toLEBytes, fromLEBytes, Nat.mod_one]
  | succ w ih =>
    simp only [toLEBytes, fromLEBytes, ih]
    rw [Nat.mod_mod_of_dvd x (dvd_refl 256), pow_succ', Nat.mod_mul]

/-- Reading back the bytes just stored at an in-bounds offset returns
exactly those bytes. -/
theorem readBytes_writeBytes (buf : List Nat) (off : Nat) (bs : List Nat)
    (h : off + bs.length ≤ buf.length) :
    readBytes (writeBytes buf off bs) off bs.length = bs := by
  unfold readBytes writeBytes
  have htl : (buf.take off).length = off := by
    rw [List.length_take]
    omega
  rw [List.append_assoc, List.drop_left' htl, List.take_left' rfl]

/-- The width bound written as a byte power. -/
theorem two_pow_8w (w : Nat) : (2 : Nat) ^ (8 * w) = 256 ^ w := by
  rw [pow_mul]
  norm_num

/-- The wrapped pattern lies below the width bound. -/
theorem intWrapBits_lt (w : Nat) (i : Int) : intWrapBits w i < 2 ^ (8 * w) := by
  unfold intWrapBits
  have hN : (0 : Nat) < 2 ^ (8 * w) := pow_pos (by norm_num) _
  have hpos : (0 : Int) < ((2 ^ (8 * w) : Nat) : Int) := by omega
  have h1 := Int.emod_lt_of_pos i hpos
  have h2 := Int.emod_nonneg i (by omega : ((2 ^ (8 * w) : Nat) : Int) ≠ 0)
  omega

/-- A nonnegative in-width integer wraps to itself. -/
theorem intWrapBits_eq_self (w : Nat) (i : Int) (h0 : 0 ≤ i)
    (hlt : i < ((2 ^ (8 * w) : Nat) : Int)) :
    ((intWrapBits w i : Nat) : Int) = i := by
  unfold intWrapBits
  rw [Int.emod_eq_of_lt h0 hlt]
  exact Int.toNat_of_nonneg h0

/-- Two's complement decode of the wrapped pattern recovers any integer
within the signed range of the width. -/
theorem decodeSigned_intWrapBits (w : Nat) (hw : 0 < w) (i : Int)
    (h1 : -((2 ^ (8 * w - 1) : Nat) : Int) ≤ i)
    (h2 : i < ((2 ^ (8 * w - 1) : Nat) : Int)) :
    decodeSigned w (intWrapBits w i) = i := by
  have hsplit : (2 : Nat) ^ (8 * w) = 2 * 2 ^ (8 * w - 1) := by
    have h8 : 8 * w = (8 * w - 1) + 1 := by omega
    conv_lhs => rw [h8, pow_succ]
    omega
  have hcast : ((2 ^ (8 * w) : Nat) : Int) = 2 * ((2 ^ (8 * w - 1) : Nat) : Int) := by
    rw [hsplit]
    push_cast
    ring
  have hA : (0 : Nat) < 2 ^ (8 * w - 1) := pow_pos (by norm_num) _
  have hApos : (0 : Int) < ((2 ^ (8 * w - 1) : Nat) : Int) := by omega
  have hIpow : ((2 ^ (8 * w) : Nat) : Int) = (2 : Int) ^ (8 * w) := by
    push_cast
    ring
  unfold intWrapBits decodeSigned
  by_cases hi : 0 ≤ i
  · have hmod : i % ((2 ^ (8 * w) : Nat) : Int) = i := Int.emod_eq_of_lt hi (by omega)
    rw [hmod]
    have hnat : (i.toNat : Int) = i := Int.toNat_of_nonneg hi
    have hlt : i.toNat < 2 ^ (8 * w - 1) := by omega
    rw [if_pos hlt]
    exact hnat
  · push_neg at hi
    have e0 : 0 ≤ i + ((2 ^ (8 * w) : Nat) : Int) := by omega
    have e1 : i + ((2 ^ (8 * w) : Nat) : Int) < ((2 ^ (8 * w) : Nat) : Int) := by omega
    have hkey : i % ((2 ^ (8 * w) : Nat) : Int) = i + ((2 ^ (8 * w) : Nat) : Int) := by
      have step := Int.add_mul_emod_self_left i ((2 ^ (8 * w) : Nat) : Int) 1
      rw [mul_one] at step
      rw [← step, Int.emod_eq_of_lt e0 e1]
    rw [hkey]
    have hge : ¬((i + ((2 ^ (8 * w) : Nat) : Int)).toNat < 2 ^ (8 * w - 1)) := by omega
    rw [if_neg hge]
    rw [← hIpow]
    omega

/-- Write-then-read of a host integer through an integer scalar arm: the
write narrows by wraparound, the read widens back, and an in-range value
survives unchanged. -/
theorem int_scalar_roundtrip (t : CType) (w : Nat) (signed : Bool)
    (ht : intTarget t = some (w, signed)) (hw : 0 < w) (hw8 : w ≤ 8)
    (hts : w ≤ t.size) (buf : List Nat) (hbuf : buf.length = t.size) (i : Int)
    (hok : scalarInRange t (.integer i) = true) :
    write_value_to_ptr_cd buf 0 t (.integer i)
        = .ok (writeBytes buf 0 (toLEBytes w (intWrapBits w i)))
    ∧ read_ctype_value (writeBytes buf 0 (toLEBytes w (intWrapBits w i))) 0 t
        = .integer i := by
  have hrd : readBytes (writeBytes buf 0 (toLEBytes w (intWrapBits w i))) 0
      (toLEBytes w (intWrapBits w i)).length = toLEBytes w (intWrapBits w i) :=
    readBytes_writeBytes _ _ _ (by rw [toLEBytes_length]; omega)
  rw [toLEBytes_length] at hrd
  have hwlt := intWrapBits_lt w i
  have hfrom : fromLEBytes (readBytes (writeBytes buf 0 (toLEBytes w (intWrapBits w i))) 0 w)
      = intWrapBits w i := by
    rw [hrd, fromLEBytes_toLEBytes, ← two_pow_8w, Nat.mod_eq_of_lt hwlt]
  have hcast1 : ((2 ^ (8 * w - 1) : Nat) : Int) = (2 : Int) ^ (8 * w - 1) := by
    push_cast
    ring
  have hcast2 : ((2 ^ (8 * w) : Nat) : Int) = (2 : Int) ^ (8 * w) := by
    push_cast
    ring
  constructor
  · simp [write_value_to_ptr_cd, ht, write_numeric]
  · simp only [read_ctype_value, ht]
    rw [hfrom]
    cases signed with
    | true =>
      simp [scalarInRange, ht] at hok
      obtain ⟨⟨⟨hlo, hhi⟩, hh1⟩, hh2⟩ := hok
      simp only [if_true]
      rw [decodeSigned_intWrapBits w hw i (by rw [hcast1]; exact hlo)
        (by rw [hcast1]; exact hhi)]
    | false =>
      simp [scalarInRange, ht] at hok
      obtain ⟨⟨⟨hlo, hhi⟩, hh1⟩, hh2⟩ := hok
      simp only [Bool.false_eq_true, if_false]
      by_cases hw8' : w = 8
      · subst hw8'
        simp only [if_pos rfl]
        have heq : decodeSigned 8 (intWrapBits 8 i) = i := by
          apply decodeSigned_intWrapBits 8 (by norm_num) i
          · have hz : (0 : Int) ≤ ((2 ^ (8 * 8 - 1) : Nat) : Int) := by positivity
            omega
          · have he : ((2 ^ (8 * 8 - 1) : Nat) : Int) = (2 : Int) ^ 63 := by norm_num
            rw [he]
            exact hh2
        simp [heq]
      · rw [if_neg hw8']
        rw [intWrapBits_eq_self w i hlo (by rw [hcast2]; exact hhi)]

set_option maxRecDepth 4096 in
/-- The narrowed binary32 pattern always fits in 32 bits. -/
theorem f64BitsAsF32_lt (bits : Nat) : f64BitsAsF32 bits < 2 ^ 32 := by
  simp only [f64BitsAsF32]
  have hs : bits / 2 ^ 63 % 2 < 2 := Nat.mod_lt _ (by norm_num)
  have hm : bits % 2 ^ 52 < 2 ^ 52 := Nat.mod_lt _ (by norm_num)
  have he : bits / 2 ^ 52 % 2 ^ 11 < 2 ^ 11 := Nat.mod_lt _ (by norm_num)
  split_ifs <;> omega

set_option maxRecDepth 4096 in
/-- Widening the exactly narrowed pattern restores the original pattern
on the Float native range. -/
theorem f32_widen_narrow (bits : Nat) (h : f32ExactRange bits = true) :
    f32BitsAsF64 (f64BitsAsF32 bits) = bits := by
  simp only [f32ExactRange, Bool.and_eq_true, Bool.or_eq_true,
    decide_eq_true_eq] at h
  obtain ⟨hlt, hcase⟩ := h
  rcases hcase with ⟨he0, hm0⟩ | ⟨⟨he1, he2⟩, hm29⟩
  · have hn : f64BitsAsF32 bits = bits / 2 ^ 63 % 2 * 2 ^ 31 := by
      simp only [f64BitsAsF32]
      rw [if_pos ⟨he0, hm0⟩]
    rw [hn]
    simp only [f32BitsAsF64]
    have e1 : bits / 2 ^ 63 % 2 * 2 ^ 31 / 2 ^ 23 % 2 ^ 8 = 0 := by omega
    have e2 : bits / 2 ^ 63 % 2 * 2 ^ 31 / 2 ^ 31 % 2 = bits / 2 ^ 63 % 2 := by omega
    have e3 : bits / 2 ^ 63 % 2 * 2 ^ 31 % 2 ^ 23 = 0 := by omega
    rw [e1, e2, e3]
    norm_num
    omega
  · have hcond : ¬(bits / 2 ^ 52 % 2 ^ 11 = 0 ∧ bits % 2 ^ 52 = 0) := by omega
    have hcond2 : ¬(bits / 2 ^ 52 % 2 ^ 11 = 2047) := by omega
    have hn : f64BitsAsF32 bits = bits / 2 ^ 63 % 2 * 2 ^ 31
        + (bits / 2 ^ 52 % 2 ^ 11 - 896) * 2 ^ 23 + bits % 2 ^ 52 / 2 ^ 29 := by
      simp only [f64BitsAsF32]
      rw [if_neg hcond, if_neg hcond2, if_pos ⟨he1, he2, hm29⟩]
    rw [hn]
    simp only [f32BitsAsF64]
    have hs : bits / 2 ^ 63 % 2 < 2 := Nat.mod_lt _ (by norm_num)
    have hm : bits % 2 ^ 52 < 2 ^ 52 := Nat.mod_lt _ (by norm_num)
    have e1 : (bits / 2 ^ 63 % 2 * 2 ^ 31 + (bits / 2 ^ 52 % 2 ^ 11 - 896) * 2 ^ 23
        + bits % 2 ^ 52 / 2 ^ 29) / 2 ^ 31 % 2 = bits / 2 ^ 63 % 2 := by omega
    have e2 : (bits / 2 ^ 63 % 2 * 2 ^ 31 + (bits / 2 ^ 52 % 2 ^ 11 - 896) * 2 ^ 23
        + bits % 2 ^ 52 / 2 ^ 29) / 2 ^ 23 % 2 ^ 8 = bits / 2 ^ 52 % 2 ^ 11 - 896 := by omega
    have e3 : (bits / 2 ^ 63 % 2 * 2 ^ 31 + (bits / 2 ^ 52 % 2 ^ 11 - 896) * 2 ^ 23
        + bits % 2 ^ 52 / 2 ^ 29) % 2 ^ 23 = bits % 2 ^ 52 / 2 ^ 29 := by omega
    rw [e1, e2, e3]
    have c1 : ¬(bits / 2 ^ 52 % 2 ^ 11 - 896 = 255) := by omega
    have c2 : ¬(bits / 2 ^ 52 % 2 ^ 11 - 896 = 0) := by omega
    rw [if_neg c1, if_neg c2]
    omega

/-- Packaging of the integer-scalar round trip in the shape of the
round-trip claim. -/
theorem int_scalar_case (t : CType) (w : Nat) (signed : Bool)
    (ht : intTarget t = some (w, signed)) (hw : 0 < w) (hw8 : w ≤ 8)
    (hts : w ≤ t.size) (hsz : 0 < t.size) (hal : 0 < t.alignment)
    (v : LuaValue) (hr : scalarInRange t v = true) :
    0 < t.size ∧ 0 < t.alignment ∧
    ∀ buf, buf.length = t.size →
      ∃ buf2, write_value_to_ptr_cd buf 0 t v = .ok buf2 ∧
        read_ctype_value buf2 0 t = v := by
  refine ⟨hsz, hal, ?_⟩
  intro buf hbuf
  cases v
  case integer i =>
    obtain ⟨h1, h2⟩ := int_scalar_roundtrip t w signed ht hw hw8 hts buf hbuf i hr
    exact ⟨_, h1, h2⟩
  all_goals simp [scalarInRange, ht] at hr

/-- C3: every scalar type descriptor has positive size and positive
alignment, and writing any host value lying in the native range of the
scalar to a correctly sized buffer and then reading it back returns the
same value (round trip), through write_value_to_ptr and
read_ctype_value of src/src/cdata.rs. -/
theorem C3_scalar_roundtrip (t : CType) (v : LuaValue)
    (hs : t.isScalar = true) (hr : scalarInRange t v = true) :
    0 < t.size ∧ 0 < t.alignment ∧
    ∀ buf, buf.length = t.size →
      ∃ buf2, write_value_to_ptr_cd buf 0 t v = .ok buf2 ∧
        read_ctype_value buf2 0 t = v := by
  cases t
  case posix p =>
    cases p <;>
      (apply int_scalar_case <;> first | rfl | decide | exact hr)
  case bool =>
    refine ⟨by decide, by decide, ?_⟩
    intro buf hbuf
    cases v
    case boolean b =>
      refine ⟨_, rfl, ?_⟩
      have hrw := readBytes_writeBytes buf 0 [if b then 1 else 0]
        (by simp [hbuf, CType.size])
      simp only [List.length_cons, List.length_nil] at hrw
      simp only [read_ctype_value, intTarget]
      rw [hrw]
      cases b <;> simp [fromLEBytes]
    all_goals simp [scalarInRange, intTarget] at hr
  case float =>
    refine ⟨by decide, by decide, ?_⟩
    intro buf hbuf
    cases v
    case number bits =>
      refine ⟨_, rfl, ?_⟩
      have hlt32 := f64BitsAsF32_lt bits
      have hrw := readBytes_writeBytes buf 0 (toLEBytes 4 (f64BitsAsF32 bits))
        (by rw [toLEBytes_length, hbuf]; decide)
      rw [toLEBytes_length] at hrw
      simp only [read_ctype_value, intTarget]
      rw [hrw, fromLEBytes_toLEBytes]
      have h256 : (256 : Nat) ^ 4 = 2 ^ 32 := by norm_num
      rw [h256, Nat.mod_eq_of_lt hlt32, f32_widen_narrow bits hr]
    all_goals simp [scalarInRange, intTarget] at hr
  case double =>
    refine ⟨by decide, by decide, ?_⟩
    intro buf hbuf
    cases v
    case number bits =>
      refine ⟨_, rfl, ?_⟩
      have hb : bits < 2 ^ 64 := of_decide_eq_true hr
      have hrw := readBytes_writeBytes buf 0 (toLEBytes 8 (bits % 2 ^ 64))
        (by rw [toLEBytes_length, hbuf]; decide)
      rw [toLEBytes_length] at hrw
      simp only [read_ctype_value, intTarget]
      rw [hrw, fromLEBytes_toLEBytes]
      congr 1
      have h256 : (256 : Nat) ^ 8 = 2 ^ 64 := by norm_num
      rw [h256]
      omega
    all_goals simp [scalarInRange, intTarget] at hr
  all_goals first
    | (apply int_scalar_case <;> first | rfl | decide | exact hr)
    | exact absurd hs (by simp [CType.isScalar, intTarget])

/-- Witness for C3: the round trip evaluated at the in-range int value -7
and at the in-range float value 1.5 (pattern 1023 * 2^52 + 2^51, which
narrows to the binary32 pattern 0x3FC00000, bytes 0 0 192 63). -/
theorem C3_scalar_roundtrip_witness :
    0 < CType.int.size ∧ 0 < CType.int.alignment ∧
    write_value_to_ptr_cd [0, 0, 0, 0] 0 .int (.integer (-7))
      = .ok [249, 255, 255, 255] ∧
    read_ctype_value [249, 255, 255, 255] 0 .int = .integer (-7) ∧
    0 < CType.float.size ∧
    write_value_to_ptr_cd [0, 0, 0, 0] 0 .float (.number (1023 * 2 ^ 52 + 2 ^ 51))
      = .ok [0, 0, 192, 63] ∧
    read_ctype_value [0, 0, 192, 63] 0 .float = .number (1023 * 2 ^ 52 + 2 ^ 51) := by
  have hi := C3_scalar_roundtrip .int (.integer (-7)) (by decide) (by decide)
  have hf := C3_scalar_roundtrip .float (.number (1023 * 2 ^ 52 + 2 ^ 51))
    (by decide) (by decide)
  exact ⟨hi.1, hi.2.1, rfl, rfl, hf.1, rfl, rfl⟩

/-- The source layout loop agrees with the claim-side arithmetic
recurrence from any starting cursor whose worst-case growth stays inside
the 64-bit word. -/
theorem calcFieldOffsetsFrom_eq_spec (fields : List CField) :
    ∀ cursor,
      cursor + (fields.map fun f => f.ctype.alignment + f.ctype.size).sum < 2 ^ 64 →
      calcFieldOffsetsFrom cursor fields = specLayoutFrom cursor fields := by
  induction fields with
  | nil => intro cursor _; rfl
  | cons f rest ih =>
    intro cursor h
    obtain ⟨n, t, o⟩ := f
    rw [List.map_cons, List.sum_cons] at h
    have hc : (CField.mk n t o).ctype = t := rfl
    rw [hc] at h
    have hpos := CType.alignment_pos t
    have heq : alignUpBits cursor t.alignment = specRoundUp cursor t.alignment :=
      alignUpBits_eq_specRoundUp _ _ (CType.alignment_isPowTwo t) (by omega)
    have hle := (specRoundUp_bounds cursor t.alignment hpos).2
    simp only [calcFieldOffsetsFrom, specLayoutFrom, heq]
    congr 1
    exact ih _ (by omega)

/-- The maximum field end of the laid-out list is bounded by the starting
cursor plus the worst-case growth of the cursor. -/
theorem fieldsMaxEnd_spec_le (fields : List CField) :
    ∀ cursor,
      (CType.fieldsMaxEnd (specLayoutFrom cursor fields)).getD 0 ≤
        cursor + (fields.map fun f => f.ctype.alignment + f.ctype.size).sum := by
  induction fields with
  | nil => intro cursor; simp [specLayoutFrom, CType.fieldsMaxEnd]
  | cons f rest ih =>
    intro cursor
    obtain ⟨n, t, o⟩ := f
    have hpos := CType.alignment_pos t
    have hb := (specRoundUp_bounds cursor t.alignment hpos).2
    have htail := ih (specRoundUp cursor t.alignment + t.size)
    rw [List.map_cons, List.sum_cons]
    have hc : (CField.mk n t o).ctype = t := rfl
    rw [hc]
    simp only [specLayoutFrom, CType.fieldsMaxEnd]
    cases hm : CType.fieldsMaxEnd
        (specLayoutFrom (specRoundUp cursor t.alignment + t.size) rest) with
    | none =>
      simp only [Option.getD_some]
      omega
    | some m =>
      rw [hm] at htail
      simp only [Option.getD_some] at htail ⊢
      omega

/-- C1: the offset pass of the layout engine gives every field the
running cursor rounded up to the field alignment (the bit expression of
the source agreeing with the arithmetic round-up of the spec), advances
the cursor by the field size, and the struct size is the maximum field
end offset rounded up to the struct alignment.  The hypothesis keeps the
worst-case cursor inside the 64-bit word, where the wrapping usize
arithmetic of the source is exact. -/
theorem C1_struct_layout (name : String) (fields : List CField)
    (hb : (fields.map fun f => f.ctype.alignment + f.ctype.size).sum + 8 < 2 ^ 64) :
    calculate_field_offsets fields = specLayoutFields fields ∧
    (CType.struct name (calculate_field_offsets fields)).size
      = specRoundUp ((CType.fieldsMaxEnd (calculate_field_offsets fields)).getD 0)
          ((CType.struct name (calculate_field_offsets fields)).alignment) := by
  have h1 : calculate_field_offsets fields = specLayoutFields fields :=
    calcFieldOffsetsFrom_eq_spec fields 0 (by omega)
  refine ⟨h1, ?_⟩
  rw [h1]
  cases fields with
  | nil =>
    have hz : specLayoutFields ([] : List CField) = [] := rfl
    rw [hz]
    have ha : (CType.struct name ([] : List CField)).alignment = 1 := rfl
    simp [CType.size, CType.fieldsMaxEnd, specRoundUp, ha]
  | cons f rest =>
    have hne : (specLayoutFields (f :: rest)).isEmpty = false := by
      obtain ⟨n, t, o⟩ := f
      rfl
    have hmaxle := fieldsMaxEnd_spec_le (f :: rest) 0
    have hfe : specLayoutFrom 0 (f :: rest) = specLayoutFields (f :: rest) := rfl
    rw [hfe] at hmaxle
    have halign := CType.alignment_isPowTwo
      (CType.struct name (specLayoutFields (f :: rest)))
    have hal8 := CType.alignment_le_8
      (CType.struct name (specLayoutFields (f :: rest)))
    simp only [CType.size]
    rw [if_neg (by rw [hne]; simp)]
    apply alignUpBits_eq_specRoundUp _ _ halign
    have hz : (0 : Nat) + (List.map (fun f => f.ctype.alignment + f.ctype.size)
        (f :: rest)).sum = (List.map (fun f => f.ctype.alignment + f.ctype.size)
        (f :: rest)).sum := by omega
    rw [hz] at hmaxle
    omega

/-- Witness for C1: a struct of two 4-byte ints lays out to offsets 0 and
4 with size 8. -/
theorem C1_struct_layout_witness :
    calculate_field_offsets [CField.mk "x" .int 0, CField.mk "y" .int 0]
      = [CField.mk "x" .int 0, CField.mk "y" .int 4] ∧
    (CType.struct "P" (calculate_field_offsets
        [CField.mk "x" .int 0, CField.mk "y" .int 0])).size = 8 := by
  have h := C1_struct_layout "P" [CField.mk "x" .int 0, CField.mk "y" .int 0]
    (by decide)
  exact ⟨h.1.trans (by rfl), by rfl⟩

/-- C8: a VariableLengthArray descriptor has size 0 and the alignment of
its inner type (the vla arms of CType.size and CType.alignment, modelled
from the spec because the variant is missing from the ctype.rs snapshot,
and confirmed by tests/vla_test.rs). -/
theorem C8_vla_size_alignment (inner : CType) :
    (CType.vla inner).size = 0 ∧ (CType.vla inner).alignment = inner.alignment :=
  ⟨rfl, rfl⟩

/-- The recorded byte length of a fresh memory value is the requested
size on every allocation path. -/
theorem CData.new_size (t : CType) (s : Nat) : (CData.new t s).size = s := by
  unfold CData.new
  split_ifs with h1 h2
  · rfl
  · rfl
  · show 0 = s
    omega

/-- The recorded type of a fresh memory value is the requested type. -/
theorem CData.new_ctype (t : CType) (s : Nat) : (CData.new t s).ctype = t := by
  unfold CData.new
  split_ifs <;> rfl

/-- A zero-size allocation is the null, non-owning, empty value. -/
theorem CData.new_zero (t : CType) :
    CData.new t 0 = { ctype := t, ptr := 0, owned := false, size := 0,
                      small := false, data := [] } := by
  unfold CData.new
  rw [if_neg (by decide), if_neg (by decide)]

/-- C4: the drop glue frees exactly the heap layout the allocation
requested (same size, same alignment) for a heap-backed owned value,
frees nothing for small-buffer-backed and empty values and for
non-owning views, and the drop action of a single value never amounts to
more than one deallocation (Rust runs the drop glue once per value). -/
theorem C4_release_semantics (t : CType) (s : Nat) (p : Nat) (d : List Nat) :
    (SMALL_BUFFER_SIZE < s →
      (CData.new t s).dropFrees = some (CData.heapLayout t s)) ∧
    (s ≤ SMALL_BUFFER_SIZE → (CData.new t s).dropFrees = none) ∧
    (CData.from_ptr t p false d).dropFrees = none ∧
    (∀ cd : CData, cd.dropFrees.toList.length ≤ 1) := by
  refine ⟨?_, ?_, ?_, ?_⟩
  · intro hs
    have hbig : 64 < s := hs
    have hs' : ¬(s ≤ SMALL_BUFFER_SIZE ∧ 0 < s) := by
      unfold SMALL_BUFFER_SIZE
      omega
    have h0 : 0 < s := by omega
    unfold CData.new
    rw [if_neg hs', if_pos h0]
    unfold CData.dropFrees CData.heapLayout
    rw [if_pos ⟨rfl, by simp, h0, rfl⟩]
  · intro hs
    unfold CData.new
    by_cases h0 : 0 < s
    · rw [if_pos ⟨hs, h0⟩]
      unfold CData.dropFrees
      rw [if_neg (by simp)]
    · rw [if_neg (by tauto), if_neg h0]
      unfold CData.dropFrees
      rw [if_neg (by simp)]
  · unfold CData.from_ptr CData.dropFrees
    rw [if_neg (by simp)]
  · intro cd
    cases cd.dropFrees <;> simp

/-- Witness for C4 at a 100-byte heap allocation, a 4-byte small-buffer
allocation and a view. -/
theorem C4_release_semantics_witness :
    (CData.new (.array .char 100) 100).dropFrees
      = some (CData.heapLayout (.array .char 100) 100) ∧
    (CData.new .int 4).dropFrees = none ∧
    (CData.from_ptr .int 77 false []).dropFrees = none := by
  have h1 := C4_release_semantics (.array .char 100) 100 77 []
  have h2 := C4_release_semantics .int 4 77 []
  exact ⟨h1.1 (by decide), h2.2.1 (by decide), h2.2.2.1⟩

/-- C2: allocating a VariableLengthArray with an explicit nonnegative
numeric count whose byte total fits the 64-bit usize product yields a
value whose byte length is the count times the element size and whose
recorded type is the concrete Array of that count (the VLA tag is not
retained); a negative, non-finite or missing count is rejected with the
VLA-size input errors of new_cdata, and the allocation itself cannot
fail on this path. -/
theorem C2_vla_resolution (inner : CType) :
    (∀ i : Int, 0 ≤ i → inner.size * i.toNat < 2 ^ 64 →
      ∃ cd, new_cdata_with (.vla inner) (some (.integer i)) = .ok cd ∧
        cd.ctype = .array inner i.toNat ∧ cd.size = i.toNat * inner.size) ∧
    (∀ i : Int, i < 0 →
      new_cdata_with (.vla inner) (some (.integer i))
        = .error "VLA size must be non-negative") ∧
    (∀ bits : Nat, ¬(f64Ge0 bits = true ∧ f64IsFinite bits = true) →
      new_cdata_with (.vla inner) (some (.number bits))
        = .error "VLA size must be non-negative") ∧
    (∀ bits : Nat, f64Ge0 bits = true → f64IsFinite bits = true →
      inner.size * (f64AsInt bits 8 false).toNat < 2 ^ 64 →
      ∃ cd, new_cdata_with (.vla inner) (some (.number bits)) = .ok cd ∧
        cd.ctype = .array inner (f64AsInt bits 8 false).toNat ∧
        cd.size = (f64AsInt bits 8 false).toNat * inner.size) ∧
    new_cdata_with (.vla inner) none = .error "VLA requires a size parameter" ∧
    (∀ v : LuaValue, v.isNumeric = false →
      new_cdata_with (.vla inner) (some v)
        = .error "VLA requires a numeric size as initialization parameter") := by
  refine ⟨?_, ?_, ?_, ?_, rfl, ?_⟩
  · intro i hi hov
    simp only [new_cdata_with]
    rw [if_pos hi]
    exact ⟨_, rfl, CData.new_ctype _ _,
      by rw [CData.new_size, Nat.mod_eq_of_lt hov]; ring⟩
  · intro i hi
    simp only [new_cdata_with]
    rw [if_neg (by omega)]
  · intro bits h
    simp only [new_cdata_with]
    rw [if_neg (by simpa [Bool.and_eq_true] using h)]
  · intro bits h1 h2 hov
    simp only [new_cdata_with]
    rw [if_pos (by simp [Bool.and_eq_true, h1, h2])]
    exact ⟨_, rfl, CData.new_ctype _ _,
      by rw [CData.new_size, Nat.mod_eq_of_lt hov]; ring⟩
  · intro v hv
    cases v <;> first
      | rfl
      | simp [LuaValue.isNumeric] at hv

/-- Witness for C2: a VLA of char pointers resolved with count 3 has
byte length 24 and recorded type Array(Ptr(Char), 3); count -1 and a
missing count are rejected. -/
theorem C2_vla_resolution_witness :
    (new_cdata_with (.vla (.ptr .char)) (some (.integer 3))).map
        (fun cd => (cd.size, cd.owned, cd.ptr)) = .ok (24, true, 1) ∧
    new_cdata_with (.vla (.ptr .char)) (some (.integer (-1)))
      = .error "VLA size must be non-negative" ∧
    new_cdata_with (.vla (.ptr .char)) none
      = .error "VLA requires a size parameter" := by
  have h := C2_vla_resolution (.ptr .char)
  obtain ⟨cd, hok, hct, hsz⟩ := h.1 3 (by decide) (by decide)
  refine ⟨?_, h.2.1 (-1) (by decide), h.2.2.2.2.1⟩
  rw [hok]
  have hsz24 : cd.size = 24 := by rw [hsz]; rfl
  have hrest : cd.owned = true ∧ cd.ptr = 1 := by
    have : Except.ok (ε := String) cd
        = .ok (CData.new (.array (.ptr .char) 3) 24) := by
      rw [← hok]; rfl
    cases this
    exact ⟨rfl, rfl⟩
  simp [Except.map, hsz24, hrest.1, hrest.2]

/-- Counterexample to C10 as stated: the VLA descriptor has computed size
0, yet allocating it with an initializer does not ignore the initializer
and does not produce a null value (the initializer is consumed as the
element count, giving an owned 20-byte value), and allocating it without
an initializer returns an error rather than a null value. -/
theorem C10_zero_size_counterexample :
    (CType.vla .int).size = 0 ∧
    (new_cdata_with (.vla .int) (some (.integer 5))).map
        (fun cd => (cd.ptr, cd.owned, cd.size)) = .ok (1, true, 20) ∧
    new_cdata_with (.vla .int) none = .error "VLA requires a size parameter" :=
  ⟨rfl, rfl, rfl⟩

/-- C10 amended: allocating any non-VLA type whose computed size is 0
(void, an empty struct, a zero-length array) yields a value with a null
pointer, no ownership and byte length 0, and any initializer supplied for
such a value is silently ignored: no bytes are written and no error is
returned. -/
theorem C10_zero_size_alloc (t : CType) (init : Option LuaValue)
    (hz : t.size = 0) (hv : ∀ inner, t ≠ .vla inner) :
    new_cdata_with t init
      = .ok { ctype := t, ptr := 0, owned := false, size := 0,
              small := false, data := [] } := by
  cases t <;> first
    | exact absurd rfl (hv _)
    | (simp only [new_cdata_with]
       rw [hz, CData.new_zero]
       cases init with
       | none => rfl
       | some v => simp [initialize_cdata])

/-- Witness for C10 amended at void with a discarded initializer. -/
theorem C10_zero_size_alloc_witness :
    new_cdata_with .void (some (.str [1, 2, 3]))
      = .ok { ctype := .void, ptr := 0, owned := false, size := 0,
              small := false, data := [] } :=
  C10_zero_size_alloc .void (some (.str [1, 2, 3])) rfl
    (fun _ h => CType.noConfusion h)

/-- C5, divergence of the code from the claim: a string source larger
than the destination is rejected as the buffer-overflow error before any
write, but a cdata source with an explicit count larger than the
destination is copied unchecked — copy_memory returns Ok(16) after
writing 16 bytes over a 4-byte destination (a heap overflow in the
source, visible here as the destination region growing to 16 bytes). -/
theorem C5_copy_unchecked_cdata_divergence :
    copy_memory (CData.new .int 4) (.str [104, 105, 106, 107, 108, 109]) (some 6)
      = .error "Buffer overflow" ∧
    (copy_memory (CData.new .int 4)
        (.userdata (CData.new (.array .char 16) 16)) (some 16)).map
      (fun r => (r.1, r.2.data.length)) = .ok (16, 16) :=
  ⟨rfl, rfl⟩

/-- The option-valued maximum of field sizes agrees with the fold form. -/
theorem fieldsMaxSize_foldr (fs : List CField) :
    (CType.fieldsMaxSize fs).getD 0 = (fs.map fun f => f.ctype.size).foldr max 0 := by
  induction fs with
  | nil => rfl
  | cons f rest ih =>
    obtain ⟨n, t, o⟩ := f
    rw [List.map_cons, List.foldr_cons]
    have hc : (CField.mk n t o).ctype = t := rfl
    rw [hc]
    simp only [CType.fieldsMaxSize]
    cases hm : CType.fieldsMaxSize rest with
    | none =>
      cases rest with
      | nil =>
        show t.size = max t.size (List.foldr max 0 (List.map (fun f => f.ctype.size) ([] : List CField)))
        simp
      | cons g r2 =>
        obtain ⟨n2, t2, o2⟩ := g
        simp [CType.fieldsMaxSize] at hm
    | some m =>
      rw [hm] at ih
      simp only [Option.getD_some] at ih
      show max t.size m = max t.size (List.foldr max 0 (List.map (fun f => f.ctype.size) rest))
      omega

/-- The option-valued maximum of field alignments agrees with the fold
form whose base is 1 (every alignment is at least 1). -/
theorem fieldsMaxAlign_foldr (fs : List CField) :
    (CType.fieldsMaxAlign fs).getD 1
      = (fs.map fun f => f.ctype.alignment).foldr max 1 := by
  induction fs with
  | nil => rfl
  | cons f rest ih =>
    obtain ⟨n, t, o⟩ := f
    rw [List.map_cons, List.foldr_cons]
    have hc : (CField.mk n t o).ctype = t := rfl
    rw [hc]
    have hpos := CType.alignment_pos t
    simp only [CType.fieldsMaxAlign]
    cases hm : CType.fieldsMaxAlign rest with
    | none =>
      cases rest with
      | nil =>
        show t.alignment = max t.alignment (List.foldr max 1 (List.map (fun f => f.ctype.alignment) ([] : List CField)))
        simp
        omega
      | cons g r2 =>
        obtain ⟨n2, t2, o2⟩ := g
        simp [CType.fieldsMaxAlign] at hm
    | some m =>
      rw [hm] at ih
      simp only [Option.getD_some] at ih
      show max t.alignment m = max t.alignment (List.foldr max 1 (List.map (fun f => f.ctype.alignment) rest))
      omega

/-- C6 amended: a union's size is the maximum of its field sizes and its
alignment the maximum of its field alignments, both computed without
consulting the stored field offsets; the code assigns no offsets to
union fields (the layout pass runs only for parsed structs and the
parser cannot declare unions), so a field offset is whatever the
descriptor was constructed with. -/
theorem C6_union_layout (name : String) (fields : List CField) :
    (CType.union name fields).size
      = (fields.map fun f => f.ctype.size).foldr max 0 ∧
    (CType.union name fields).alignment
      = (fields.map fun f => f.ctype.alignment).foldr max 1 :=
  ⟨fieldsMaxSize_foldr fields, fieldsMaxAlign_foldr fields⟩

/-- Counterexample to C6 as stated: a union field constructed at offset 3
is reported by offsetof at offset 3, not 0 — no code path forces union
fields to offset 0. -/
theorem C6_union_offset_counterexample :
    offsetof_field (register_type [] "V" (.union "V" [CField.mk "i" .int 3]))
      "V" "i" = .ok 3 ∧ (3 : Nat) ≠ 0 :=
  ⟨rfl, by decide⟩

/-- The binary64 pattern with biased exponent 1031 and mantissa field
44 * 2 ^ 44 reads as the finite value 300. -/
theorem f64Classify_300 :
    f64Classify (1031 * 2 ^ 52 + 44 * 2 ^ 44) = .finite 300 := by
  unfold f64Classify
  norm_num

/-- The Rust saturating cast of 300.0 to u8 yields 255. -/
theorem f64AsInt_300_u8 :
    f64AsInt (1031 * 2 ^ 52 + 44 * 2 ^ 44) 1 false = 255 := by
  unfold f64AsInt
  rw [f64Classify_300]
  have ht : ratTrunc 300 = 300 := by
    unfold ratTrunc
    rw [if_neg (by norm_num)]
    rw [show ((300 : ℚ)) = ((300 : ℤ) : ℚ) by norm_num, Int.floor_intCast]
  norm_num [ht]

/-- C7 amended: writing a host value into any integer scalar target of
width w accepts both a host integer and a host floating value.  A host
integer narrows by wraparound: the stored bytes decode back to the value
modulo 2 to the 8w.  A host floating value is first truncated toward
zero and then clamped to the target range (the Rust saturating
float-to-integer cast, f64AsInt), and the clamped integer is stored the
same way. -/
theorem C7_integer_write_narrowing (t : CType) (w : Nat) (signed : Bool)
    (ht : intTarget t = some (w, signed)) (buf : List Nat)
    (hbuf : buf.length = w) :
    (∀ i : Int, write_value_to_ptr_cd buf 0 t (.integer i)
        = .ok (toLEBytes w (intWrapBits w i))) ∧
    (∀ i : Int, fromLEBytes (toLEBytes w (intWrapBits w i))
        = (i % ((2 ^ (8 * w) : Nat) : Int)).toNat) ∧
    (∀ bits : Nat, write_value_to_ptr_cd buf 0 t (.number bits)
        = .ok (toLEBytes w (intWrapBits w (f64AsInt bits w signed)))) := by
  have hwb : ∀ x : Nat, writeBytes buf 0 (toLEBytes w x) = toLEBytes w x := by
    intro x
    unfold writeBytes
    rw [toLEBytes_length, List.take_zero, List.nil_append, Nat.zero_add, ← hbuf,
      List.drop_length, List.append_nil]
  refine ⟨?_, ?_, ?_⟩
  · intro i
    simp only [write_value_to_ptr_cd, ht, write_numeric]
    rw [hwb]
  · intro i
    rw [fromLEBytes_toLEBytes, ← two_pow_8w,
      Nat.mod_eq_of_lt (intWrapBits_lt w i)]
    rfl
  · intro bits
    simp only [write_value_to_ptr_cd, ht, write_numeric]
    rw [hwb]

theorem C7_integer_write_narrowing_witness :
    write_value_to_ptr_cd [0] 0 .uint8 (.integer 300) = .ok [44] ∧
    write_value_to_ptr_cd [0] 0 .uint8
      (.number (1031 * 2 ^ 52 + 44 * 2 ^ 44)) = .ok [255] :=
  have h := C7_integer_write_narrowing .uint8 1 false rfl [0] rfl
  ⟨(h.1 300).trans (by rfl),
   (h.2.2 (1031 * 2 ^ 52 + 44 * 2 ^ 44)).trans
     (by rw [f64AsInt_300_u8]; rfl)⟩

/-- Counterexample to C7 as stated: the bit pattern of 300.0 written to a
uint8 target stores 255 (truncation then saturation at the range bound),
not 300 mod 256 = 44 — floating values outside the native width are
narrowed by saturation, not by wraparound. -/
theorem C7_float_saturation_counterexample :
    write_value_to_ptr_cd [0] 0 .uint8
      (.number (1031 * 2 ^ 52 + 44 * 2 ^ 44)) = .ok [255] ∧
    f64Classify (1031 * 2 ^ 52 + 44 * 2 ^ 44) = .finite 300 ∧
    (255 : Nat) ≠ 300 % 2 ^ 8 := by
  refine ⟨?_, f64Classify_300, by decide⟩
  simp only [write_value_to_ptr_cd, intTarget, write_numeric]
  rw [f64AsInt_300_u8]
  rfl

/-- Counterexample to C9 as stated: parsing the struct declaration with
its trailing semicolon missing does not fail — parse_cdef returns Ok,
because the parse_function fallback consumes the unparsed tokens line by
line — though the struct is indeed not registered. -/
theorem C9_missing_semicolon_counterexample :
    (parse_cdef [] "struct Point \x7b int x; int y; \x7d").2 = .ok () ∧
    (parse_cdef [] "struct Point \x7b int x; int y; \x7d").1 = [] :=
  ⟨rfl, rfl⟩

/-- C9 amended: parsing the struct declaration with the trailing
semicolon missing returns Ok (the function-declaration skipper consumes
the tokens), but the struct is not registered, so resolving Point
afterwards fails with the Unknown-type error; with the semicolon present
the parse succeeds and registers Point with field x at offset 0, field y
at offset 4, and size 8. -/
theorem C9_missing_semicolon_behavior :
    (parse_cdef [] "struct Point \x7b int x; int y; \x7d").2 = .ok () ∧
    lookup_type (parse_cdef [] "struct Point \x7b int x; int y; \x7d").1
      "Point" = .error "Unknown type" ∧
    (parse_cdef [] "struct Point \x7b int x; int y; \x7d;").2 = .ok () ∧
    offsetof_field (parse_cdef [] "struct Point \x7b int x; int y; \x7d;").1
      "Point" "x" = .ok 0 ∧
    offsetof_field (parse_cdef [] "struct Point \x7b int x; int y; \x7d;").1
      "Point" "y" = .ok 4 ∧
    sizeof_type (parse_cdef [] "struct Point \x7b int x; int y; \x7d;").1
      "Point" = .ok 8 :=
  ⟨rfl, rfl, rfl, rfl, rfl, rfl⟩
